import Mathlib

/-!
# Verification of the parallel chunked scan-and-aggregate engine (`src/main.rs`)

A shallow embedding of the Rust program in Lean 4.

Conventions of the embedding:
* bytes are `Nat` (values below 256 in every input we build);
* `f64` values are modelled exactly: every measurement the program's parser
  produces is an integer (its final step is an `i64` division), sums of
  integers of this size are exact in `f64`, so records carry `Int`; the
  derived mean is stated over `ℚ`;
* machine-integer (`usize`, `u8`, `i64`) subtraction is checked: an
  underflow, which panics in Rust's checked (debug) semantics, is `none`;
* fallible code (indexing panics, `unwrap`, `unreachable!`) returns `Option`,
  with `none` playing the role of the thread panic that aborts the process;
* `i64` division `/` truncates toward zero, exactly like Lean's `Int.tdiv`.
-/

set_option autoImplicit false
set_option maxRecDepth 100000

namespace OneBrc

/-- Checked machine subtraction: `a - b` panics (is `none`) on underflow. -/
def csub (a b : Nat) : Option Nat :=
  if a < b then none else some (a - b)

/-- Rust `slice::split` on one separator byte: always returns at least one
(possibly empty) piece; a separator at the end yields a trailing empty piece. -/
def splitOnByte (sep : Nat) : List Nat → List (List Nat)
  | [] => [[]]
  | b :: rest =>
    if b = sep then [] :: splitOnByte sep rest
    else
      match splitOnByte sep rest with
      | [] => [[b]]
      | cur :: more => (b :: cur) :: more

/-- Checked `u8` digit extraction `b - b'0'` (panics when `b < 0x30`). -/
def digit (b : Nat) : Option Nat :=
  csub b 48

/-- `((d1*100 + d2*10 + d3) with sign) / 10` computed in `i64`;
Rust `/` on `i64` truncates toward zero, as does `Int.tdiv`. -/
def pfVal (neg : Bool) (d1 d2 d3 : Nat) : Int :=
  let i : Int := (d1 : Int) * 100 + (d2 : Int) * 10 + (d3 : Int)
  Int.tdiv (if neg then -i else i) 10

/-- Embedding of `parse_float` (src/main.rs:121-137): reads `x[0]` (panic on
empty), keys on `(x[0] == b'-', x.len())`, extracts digit bytes with checked
`u8` subtraction, and ends with the source's `(int / 10) as f64` — an `i64`
truncating division. Unrecognized `(sign, length)` shapes hit `unreachable!`. -/
def parse_float (x : List Nat) : Option Int :=
  match x with
  | [] => none
  | b0 :: _ =>
    if b0 = 45 then
      match x with
      | [_, b, _, d] =>
        match digit b, digit d with
        | some d2, some d3 => some (pfVal true 0 d2 d3)
        | _, _ => none
      | [_, b, c, _, e] =>
        match digit b, digit c, digit e with
        | some d1, some d2, some d3 => some (pfVal true d1 d2 d3)
        | _, _, _ => none
      | _ => none
    else
      match x with
      | [a, _, c] =>
        match digit a, digit c with
        | some d2, some d3 => some (pfVal false 0 d2 d3)
        | _, _ => none
      | [a, b, _, d] =>
        match digit a, digit b, digit d with
        | some d1, some d2, some d3 => some (pfVal false d1 d2 d3)
        | _, _, _ => none
      | _ => none

/-- Embedding of `parse_row` (src/main.rs:140-148): split on `b';'`, take the
first piece as the key and the second as the value bytes (the second
`.unwrap()` panics when there is no delimiter), then parse the value. -/
def parse_row (data : List Nat) : Option (List Nat × Int) :=
  match splitOnByte 59 data with
  | city :: measurement :: _ =>
    match parse_float measurement with
    | some m => some (city, m)
    | none => none
  | _ => none

/-- The `Record` struct (src/main.rs:80-86); its `f64` fields carry only
integer values in this program, represented exactly by `Int`. -/
structure Record where
  count : Nat
  min : Int
  max : Int
  sum : Int
  deriving DecidableEq, Repr

/-- `Record::new` (src/main.rs:89-96). -/
def Record.new (measurement : Int) : Record :=
  ⟨1, measurement, measurement, measurement⟩

/-- `Record::update` (src/main.rs:99-104). -/
def Record.update (r : Record) (measurement : Int) : Record :=
  ⟨r.count + 1, Min.min r.min measurement, Max.max r.max measurement,
    r.sum + measurement⟩

/-- `Record::merge` (src/main.rs:107-112). -/
def Record.merge (r other : Record) : Record :=
  ⟨r.count + other.count, Min.min r.min other.min, Max.max r.max other.max,
    r.sum + other.sum⟩

/-- `Record::avg` (src/main.rs:115-117), the exact value of `sum / count`. -/
def Record.avg (r : Record) : ℚ :=
  (r.sum : ℚ) / (r.count : ℚ)

/-- `file.read_exact_at(&mut buf, file_i)` with `buf.len() = buf_size`
(src/main.rs:163): returns the bytes `[file_i, file_i + buf_size)` of the
file and panics (`unwrap` on a short read) when the range leaves the file. -/
def read_exact_at (file : List Nat) (file_i buf_size : Nat) : Option (List Nat) :=
  if file_i + buf_size ≤ file.length then some ((file.drop file_i).take buf_size)
  else none

/-- The head-trim loop of `read_file_chunk` (src/main.rs:165-170):
`for i in 0..bytes_excess { if buf[i] == b'\n' { buf.drain(..=i); break } }`.
Indexing `buf[i]` out of bounds panics; finding a newline at `i` keeps the
bytes after it; running the range out leaves `buf` unchanged. -/
def head_trim_go (buf : List Nat) : Nat → Nat → Option (List Nat)
  | _, 0 => some buf
  | i, fuel + 1 =>
    match buf.get? i with
    | none => none
    | some b => if b = 10 then some (buf.drop (i + 1)) else head_trim_go buf (i + 1) fuel

/-- The tail-trim loop of `read_file_chunk` (src/main.rs:172-178):
`for i in ((tail_i - 64)..tail_i).rev() { if buf[i] == b'\n' { buf.truncate(i); break } }`.
`fuel` counts the iterations left, so the index scanned is `lo + fuel - 1`,
running from `lo + 63 = tail_i - 1` down to `lo`; `truncate(i)` keeps `[0, i)`.
Every scanned index is below `tail_i < buf.length`, so `getD` never pads. -/
def tail_trim_go (buf : List Nat) (lo : Nat) : Nat → List Nat
  | 0 => buf
  | fuel + 1 =>
    if buf.getD (lo + fuel) 0 = 10 then buf.take (lo + fuel)
    else tail_trim_go buf lo fuel

/-- Embedding of `read_file_chunk` (src/main.rs:151-179). For `offset = 0` it
reads `[0, chunk_size)` with no head window; otherwise it reads
`buf_size = min(chunk_size + 64, file_size - offset)` bytes starting at
`offset - 64` and head-trims through the first newline of the 64-byte window.
Both `offset - 64` and `file_size - offset` are checked `usize` subtractions,
as are `buf.len() - 1` and `tail_i - 64` before the tail scan. -/
def read_file_chunk (file : List Nat) (file_size chunk_size offset : Nat) :
    Option (List Nat) :=
  let params : Option (Nat × Nat × Nat) :=
    if offset = 0 then some (0, chunk_size, 0)
    else
      match csub offset 64, csub file_size offset with
      | some file_i, some rem => some (file_i, Nat.min (chunk_size + 64) rem, 64)
      | _, _ => none
  match params with
  | none => none
  | some (file_i, buf_size, bytes_excess) =>
    match read_exact_at file file_i buf_size with
    | none => none
    | some buf0 =>
      match head_trim_go buf0 0 bytes_excess with
      | none => none
      | some buf1 =>
        match csub buf1.length 1 with
        | none => none
        | some tail_i =>
          match csub tail_i 64 with
          | none => none
          | some lo => some (tail_trim_go buf1 lo 64)

/-- `local_map.entry(city).and_modify(|r| r.update(m)).or_insert(Record::new(m))`
(src/main.rs:192-195) on an association list keyed by raw key bytes. -/
def upsertLocal : List (List Nat × Record) → List Nat → Int → List (List Nat × Record)
  | [], city, m => [(city, Record.new m)]
  | (k, r) :: rest, city, m =>
    if k = city then (k, r.update m) :: rest
    else (k, r) :: upsertLocal rest city m

/-- The scan loop of `parse_chunk` (src/main.rs:189-196): fold every line of
the resolved buffer into the thread-local map; a row that fails to parse
panics the thread (`none`). -/
def scan_lines (lines : List (List Nat)) : Option (List (List Nat × Record)) :=
  lines.foldlM
    (fun m line =>
      match parse_row line with
      | some cm => some (upsertLocal m cm.1 cm.2)
      | none => none)
    []

/-- Is `b` a UTF-8 continuation byte `0x80..=0xBF`? -/
def utf8_cont (b : Nat) : Bool :=
  decide (128 ≤ b) && decide (b ≤ 191)

/-- One step of lossy UTF-8 decoding with the "maximal subpart" replacement
policy of `String::from_utf8_lossy`: each maximal prefix of a valid sequence
that cannot be completed becomes one U+FFFD (65533), and decoding resumes at
the offending byte. `fuel` bounds the recursion (one unit per leading byte). -/
def utf8_lossy_go : Nat → List Nat → List Nat
  | 0, _ => []
  | _ + 1, [] => []
  | fuel + 1, b0 :: rest =>
    if b0 ≤ 127 then b0 :: utf8_lossy_go fuel rest
    else if 194 ≤ b0 && b0 ≤ 223 then
      match rest with
      | [] => [65533]
      | b1 :: rest2 =>
        if utf8_cont b1 then ((b0 - 192) * 64 + (b1 - 128)) :: utf8_lossy_go fuel rest2
        else 65533 :: utf8_lossy_go fuel rest
    else if 224 ≤ b0 && b0 ≤ 239 then
      match rest with
      | [] => [65533]
      | b1 :: rest2 =>
        let b1ok :=
          if b0 = 224 then decide (160 ≤ b1) && decide (b1 ≤ 191)
          else if b0 = 237 then decide (128 ≤ b1) && decide (b1 ≤ 159)
          else utf8_cont b1
        if b1ok then
          match rest2 with
          | [] => [65533]
          | b2 :: rest3 =>
            if utf8_cont b2 then
              ((b0 - 224) * 4096 + (b1 - 128) * 64 + (b2 - 128)) :: utf8_lossy_go fuel rest3
            else 65533 :: utf8_lossy_go fuel rest2
        else 65533 :: utf8_lossy_go fuel rest
    else if 240 ≤ b0 && b0 ≤ 244 then
      match rest with
      | [] => [65533]
      | b1 :: rest2 =>
        let b1ok :=
          if b0 = 240 then decide (144 ≤ b1) && decide (b1 ≤ 191)
          else if b0 = 244 then decide (128 ≤ b1) && decide (b1 ≤ 143)
          else utf8_cont b1
        if b1ok then
          match rest2 with
          | [] => [65533]
          | b2 :: rest3 =>
            if utf8_cont b2 then
              match rest3 with
              | [] => [65533]
              | b3 :: rest4 =>
                if utf8_cont b3 then
                  ((b0 - 240) * 262144 + (b1 - 128) * 4096 + (b2 - 128) * 64 + (b3 - 128)) ::
                    utf8_lossy_go fuel rest4
                else 65533 :: utf8_lossy_go fuel rest3
            else 65533 :: utf8_lossy_go fuel rest2
        else 65533 :: utf8_lossy_go fuel rest
    else 65533 :: utf8_lossy_go fuel rest

/-- `String::from_utf8_lossy` (src/main.rs:201) on raw key bytes, producing
the decoded string as a list of unicode code points; total by construction,
exactly like the Rust API (lossy decoding never fails). -/
def utf8_lossy (bytes : List Nat) : List Nat :=
  utf8_lossy_go bytes.length bytes

/-- `lock.entry(city).and_modify(|r| r.merge(record)).or_insert(record)`
(src/main.rs:200-204) on the shared map, keyed by the decoded string. -/
def upsertOuter : List (List Nat × Record) → List Nat → Record → List (List Nat × Record)
  | [], key, r => [(key, r)]
  | (k, r0) :: rest, key, r =>
    if k = key then (k, r0.merge r) :: rest
    else (k, r0) :: upsertOuter rest key r

/-- Embedding of `parse_chunk` (src/main.rs:182-206): resolve the chunk,
split it on the line terminator, aggregate locally, then fold the local map
into the shared map under the lock, decoding each key lossily. -/
def parse_chunk (file : List Nat) (file_size chunk_size offset : Nat)
    (outer : List (List Nat × Record)) : Option (List (List Nat × Record)) :=
  match read_file_chunk file file_size chunk_size offset with
  | none => none
  | some buf =>
    match scan_lines (splitOnByte 10 buf) with
    | none => none
    | some localMap =>
      some (localMap.foldl (fun acc e => upsertOuter acc (utf8_lossy e.1) e.2) outer)

/-- Embedding of `main`'s worker phase (src/main.rs:208-227): the offset
cursor hands the `i`-th claimant the offset `i * chunk_size`, where
`chunk_size = file_size / thread_count`; every worker folds into the shared
map; any worker panic aborts the whole process (`none`). -/
def run_pipeline (file : List Nat) (thread_count : Nat) :
    Option (List (List Nat × Record)) :=
  let file_size := file.length
  let chunk_size := file_size / thread_count
  (List.range thread_count).foldlM
    (fun outer i => parse_chunk file file_size chunk_size (i * chunk_size) outer) []

/-- Lexicographic comparison of the decoded keys, matching the `String`
ordering used by `cities.sort_unstable()` (src/main.rs:230). -/
def lexLe : List Nat → List Nat → Bool
  | [], _ => true
  | _ :: _, [] => false
  | a :: as_, b :: bs =>
    if a < b then true else if b < a then false else lexLe as_ bs

/-- Ordered insertion for `sortByKey`. -/
def insertByKey (e : List Nat × Record) :
    List (List Nat × Record) → List (List Nat × Record)
  | [] => [e]
  | f :: rest => if lexLe e.1 f.1 then e :: f :: rest else f :: insertByKey e rest

/-- The report order of `main` (src/main.rs:229-237): entries sorted by key;
the printed report is exactly this sequence rendered line by line. -/
def sortByKey : List (List Nat × Record) → List (List Nat × Record)
  | [] => []
  | e :: rest => insertByKey e (sortByKey rest)

/-- ASCII decimal digits of a natural number, with fuel. -/
def natDecimalAux : Nat → Nat → List Nat
  | 0, _ => []
  | fuel + 1, n => if n < 10 then [48 + n] else natDecimalAux fuel (n / 10) ++ [48 + n % 10]

/-- ASCII decimal digits of a natural number (e.g. `12 ↦ [49, 50]`). -/
def natDecimal (n : Nat) : List Nat :=
  natDecimalAux (n + 1) n

/-- Rust's `{:.1}` formatting restricted to integer-valued `f64`s — the only
values `parse_float` can produce: optional sign, decimal digits, `".0"`. -/
def format_fixed1 (v : Int) : List Nat :=
  (if v < 0 then [45] else []) ++ natDecimal v.natAbs ++ [46, 48]

/-- The lines of a newline-terminated file: split on the terminator and drop
the final empty piece. -/
def fileLines (file : List Nat) : List (List Nat) :=
  (splitOnByte 10 file).dropLast

/-- The per-key invariant of the spec's data model (section 3): a record
holds at least one observation and its bounds are ordered. -/
def RecordInv (r : Record) : Prop :=
  1 ≤ r.count ∧ r.min ≤ r.max

/-- Does the `(sign, length)` combination of the value bytes match one of the
four layouts `parse_float` recognizes (src/main.rs:126-131)? -/
def recognized_shape (x : List Nat) : Bool :=
  match x with
  | [] => false
  | b0 :: _ =>
    if b0 = 45 then decide (x.length = 4) || decide (x.length = 5)
    else decide (x.length = 3) || decide (x.length = 4)

/-- Are the bytes `parse_float` subtracts `b'0'` from all at least `0x30`,
so that none of its checked `u8` subtractions underflows? The positions
scanned are exactly those of the matching layout (src/main.rs:126-131). -/
def scanned_digits_ok (x : List Nat) : Bool :=
  match x with
  | [] => false
  | b0 :: _ =>
    if b0 = 45 then
      match x with
      | [_, b, _, d] => decide (48 ≤ b) && decide (48 ≤ d)
      | [_, b, c, _, e] => decide (48 ≤ b) && decide (48 ≤ c) && decide (48 ≤ e)
      | _ => false
    else
      match x with
      | [a, _, c] => decide (48 ≤ a) && decide (48 ≤ c)
      | [a, b, _, d] => decide (48 ≤ a) && decide (48 ≤ b) && decide (48 ≤ d)
      | _ => false

/-- The spec's end-to-end scenario-1 input, as bytes:
`Paris;12.3\nLondon;-1.0\nParis;15.0\n` (34 bytes). -/
def scenario1 : List Nat :=
  [80, 97, 114, 105, 115, 59, 49, 50, 46, 51, 10,
   76, 111, 110, 100, 111, 110, 59, 45, 49, 46, 48, 10,
   80, 97, 114, 105, 115, 59, 49, 53, 46, 48, 10]

/-- A 70-byte, 7-line file: line `k` is `"XXXXX;1.0\n"` with `X = 'A' + k`. -/
def F70 : List Nat :=
  ((List.range 7).map
    (fun k => [65 + k, 65 + k, 65 + k, 65 + k, 65 + k, 59, 49, 46, 48, 10])).flatten

/-- A 140-byte, 14-line file of the same shape as `F70`. -/
def F140 : List Nat :=
  ((List.range 14).map
    (fun k => [65 + k, 65 + k, 65 + k, 65 + k, 65 + k, 59, 49, 46, 48, 10])).flatten

/-- A 320-byte, 32-line file: line `k` is `"KEYxy;1.0\n"` with `xy` the
base-26 spelling of `k`, so all 32 keys are distinct. -/
def file320 : List Nat :=
  ((List.range 32).map
    (fun k => [75, 69, 89, 65 + k / 26, 65 + k % 26, 59, 49, 46, 48, 10])).flatten

/-- A 72-byte, 12-line file whose first two keys are the invalid-UTF-8 single
bytes `0xFF` and `0xFE`: `"\xFF;1.0\n\xFE;2.0\n"` then ten lines `"A;0.0\n"`. -/
def fileFF : List Nat :=
  [255, 59, 49, 46, 48, 10] ++ [254, 59, 50, 46, 48, 10] ++
    (List.replicate 10 [65, 59, 48, 46, 48, 10]).flatten

/-- `splitOnByte` returns the whole slice as its only piece when the
separator does not occur. -/
theorem splitOnByte_of_not_mem (sep : Nat) (l : List Nat) (h : sep ∉ l) :
    splitOnByte sep l = [l] := by
  induction l with
  | nil => rfl
  | cons b rest ih =>
    have hb : ¬ b = sep := by
      intro e
      exact h (by simp [e])
    have hr := ih (by intro m; exact h (List.mem_cons_of_mem _ m))
    simp [splitOnByte, hb, hr]

/-- Claim C1: the spec's numeric-parser contract says `parse_float` returns
the exact value denoted by the fixed-format text, and that parse-then-format
round-trips. The code ends with the `i64` division `(int / 10) as f64`, which
discards the fractional digit it just extracted: on the bytes of `"12.3"` it
returns `12.0` — not the denoted value `123/10` — and formatting that result
with one fractional digit yields `"12.0"`, not `"12.3"`. -/
theorem parse_float_truncates_fractional_digit :
    parse_float [49, 50, 46, 51] = some 12 ∧
    ((12 : Int) : ℚ) ≠ 123 / 10 ∧
    format_fixed1 12 = [49, 50, 46, 48] ∧
    [49, 50, 46, 48] ≠ [49, 50, 46, 51] := by
  refine ⟨by decide, by norm_num, by decide, by decide⟩

/-- Claim C2: the resolved chunk ranges are claimed to cover every line of a
well-formed file exactly once for every `N ≥ 1`. Counter-evaluation with
`N = 1` on the 7-line file `F70` (`chunk_size = file_size = 70`): the single
chunk's tail-trim scans backward from `buf.len() - 2` and truncates at the
newline that ends line 6, so the resolved buffer splits into only the first
6 of the 7 lines — the final line is covered by no chunk. -/
theorem resolver_drops_final_line :
    (read_file_chunk F70 70 70 0).map (splitOnByte 10) = some ((fileLines F70).take 6) ∧
    (fileLines F70).length = 7 := by
  refine ⟨by decide, by decide⟩

/-- Claim C3: on `Paris;12.3\nLondon;-1.0\nParis;15.0\n` with one thread the
pipeline is claimed to print the two sorted result lines. In fact the single
chunk's buffer is the whole 34-byte file, the tail-trim start `buf.len() - 1 - 64`
underflows `usize`, the worker panics, and the process aborts with no output. -/
theorem scenario1_one_thread_aborts :
    scenario1.length = 34 ∧ run_pipeline scenario1 1 = none := by
  refine ⟨by decide, by decide⟩

/-- Claim C4: a 4-thread run is claimed byte-identical to the 1-thread run.
On the 32-line file `file320` both runs complete, but their sorted reports
differ: the 1-thread run covers lines 0-30 (only the final line is lost to
the tail-trim), while the 4-thread run covers only lines 0-24 and processes
the lines near each of the three chunk boundaries twice, because each
chunk's backward tail scan and the next chunk's forward head scan pick
different newlines of the same 64-byte window. -/
theorem four_thread_differs_from_one_thread :
    (run_pipeline file320 1).isSome = true ∧
    (run_pipeline file320 4).isSome = true ∧
    (run_pipeline file320 1).map sortByKey ≠ (run_pipeline file320 4).map sortByKey := by
  refine ⟨by decide, by decide, by decide⟩

/-- Claim C5: `Record::merge` — componentwise `(count+, min, max, sum+)` —
is commutative and associative, so per-key results are independent of the
grouping and order in which records are combined. -/
theorem record_merge_comm_assoc (a b c : Record) :
    a.merge b = b.merge a ∧ (a.merge b).merge c = a.merge (b.merge c) := by
  cases a
  cases b
  cases c
  refine ⟨?_, ?_⟩
  · simp [Record.merge, Nat.add_comm, min_comm, max_comm, add_comm]
  · simp [Record.merge, Nat.add_assoc, min_assoc, max_assoc, add_assoc]

/-- Claim C6: the last chunk is claimed to absorb the integer-division
remainder and reach the final complete line. On the 14-line file `F140` with
`N = 2` (`chunk_size = 70`), the last chunk's read is clamped with
`min(chunk_size + 64, file_size - offset)` *starting at* `offset - 64`, so
its buffer ends 64 bytes before end-of-file; after trimming it resolves to
bytes `[10, 69)` — lines 1-6 — and the file's final line appears in no piece
of the resolved buffer. -/
theorem last_chunk_misses_final_line :
    read_file_chunk F140 140 70 70 = some ((F140.drop 10).take 59) ∧
    (fileLines F140).getLast? = some [78, 78, 78, 78, 78, 59, 49, 46, 48] ∧
    [78, 78, 78, 78, 78, 59, 49, 46, 48] ∉ splitOnByte 10 ((F140.drop 10).take 59) := by
  refine ⟨by decide, by decide, by decide⟩

/-- Claim C7 (counterexample): the value bytes `"+.5"` have one of the
recognized `(sign, length)` layouts — unsigned, length 3 — yet `parse_float`
does not return normally: its checked `u8` subtraction `b'+' - b'0'`
underflows, so the row `"a;+.5"` panics even though it is in a recognized
shape and has a delimiter. -/
theorem parse_float_aborts_on_recognized_shape :
    recognized_shape [43, 46, 53] = true ∧
    parse_float [43, 46, 53] = none ∧
    parse_row [97, 59, 43, 46, 53] = none := by
  refine ⟨by decide, by decide, by decide⟩

/-- Claim C8: every record satisfies `count ≥ 1` and `min ≤ max` from
creation onward: `Record::new` establishes the invariant and both
`Record::update` and `Record::merge` preserve it. -/
theorem record_invariant_preserved :
    (∀ m : Int, RecordInv (Record.new m)) ∧
    (∀ (r : Record) (m : Int), RecordInv r → RecordInv (r.update m)) ∧
    (∀ a b : Record, RecordInv a → RecordInv b → RecordInv (a.merge b)) := by
  refine ⟨fun m => ⟨le_refl 1, le_refl m⟩, fun r m hr => ⟨?_, ?_⟩,
    fun a b ha hb => ⟨?_, ?_⟩⟩
  · exact Nat.le_add_right_of_le hr.1
  · exact le_trans (min_le_left _ _) (le_trans hr.2 (le_max_left _ _))
  · exact Nat.le_add_right_of_le ha.1
  · exact le_trans (min_le_left _ _) (le_trans ha.2 (le_max_left _ _))

/-- Claim C8 witness: the invariant holds of a concrete merge of two
concretely created records. -/
theorem record_invariant_preserved_witness :
    RecordInv ((Record.new 1).merge (Record.new 2)) :=
  record_invariant_preserved.2.2 (Record.new 1) (Record.new 2)
    (record_invariant_preserved.1 1) (record_invariant_preserved.1 2)

/-- Claim C10: shared-map keys are decoded with `String::from_utf8_lossy`,
which never fails; invalid sequences become U+FFFD (65533), so the two
distinct byte keys `0xFF` and `0xFE` of `fileFF` decode to the same string
and their statistics are merged into a single shared-map entry
(count 2, min 1, max 2, sum 3). -/
theorem lossy_key_collapse :
    utf8_lossy [255] = [65533] ∧
    utf8_lossy [254] = [65533] ∧
    ([255] : List Nat) ≠ [254] ∧
    run_pipeline fileFF 1 =
      some [([65533], Record.mk 2 1 2 3), ([65], Record.mk 9 0 0 0)] := by
  refine ⟨by decide, by decide, by decide, by decide⟩

/-- Claim C7 (amended): processing a row fails fatally exactly on malformed
rows — `parse_row` panics when the line has no `b';'` delimiter, and
`parse_float` panics when the value's `(sign, byte-length)` combination is
not one of the four recognized layouts; on every row in the recognized
shapes *whose scanned digit positions hold bytes of at least `b'0'`* (in
particular on every well-formed row) both return normally. The extra digit
condition is forced by the checked `u8` subtractions `x[i] - b'0'`. -/
theorem parse_fatal_on_malformed_rows :
    (∀ data : List Nat, 59 ∉ data → parse_row data = none) ∧
    (∀ x : List Nat, recognized_shape x = false → parse_float x = none) ∧
    (∀ x : List Nat, recognized_shape x = true → scanned_digits_ok x = true →
      (parse_float x).isSome = true) := by
  refine ⟨?_, ?_, ?_⟩
  · intro data h
    simp [parse_row, splitOnByte_of_not_mem 59 data h]
  · intro x h
    rcases x with _ | ⟨a, _ | ⟨b, _ | ⟨c, _ | ⟨d, _ | ⟨e, _ | ⟨f, rest⟩⟩⟩⟩⟩⟩
    · rfl
    all_goals
      by_cases h45 : a = 45 <;> simp_all [recognized_shape, parse_float]
  · intro x h1 h2
    rcases x with _ | ⟨a, _ | ⟨b, _ | ⟨c, _ | ⟨d, _ | ⟨e, _ | ⟨f, rest⟩⟩⟩⟩⟩⟩
    · simp [recognized_shape] at h1
    · simp_all [recognized_shape]
    · simp_all [recognized_shape]
    · by_cases h45 : a = 45
      · simp_all [recognized_shape]
      · obtain ⟨ha, hc⟩ : 48 ≤ a ∧ 48 ≤ c := by simpa [scanned_digits_ok, h45] using h2
        simp [parse_float, h45, digit, csub, Nat.not_lt.mpr ha, Nat.not_lt.mpr hc]
    · by_cases h45 : a = 45
      · obtain ⟨hb, hd⟩ : 48 ≤ b ∧ 48 ≤ d := by simpa [scanned_digits_ok, h45] using h2
        simp [parse_float, h45, digit, csub, Nat.not_lt.mpr hb, Nat.not_lt.mpr hd]
      · obtain ⟨⟨ha, hb⟩, hd⟩ : (48 ≤ a ∧ 48 ≤ b) ∧ 48 ≤ d := by
          simpa [scanned_digits_ok, h45] using h2
        simp [parse_float, h45, digit, csub, Nat.not_lt.mpr ha, Nat.not_lt.mpr hb,
          Nat.not_lt.mpr hd]
    · by_cases h45 : a = 45
      · obtain ⟨⟨hb, hc⟩, he⟩ : (48 ≤ b ∧ 48 ≤ c) ∧ 48 ≤ e := by
          simpa [scanned_digits_ok, h45] using h2
        simp [parse_float, h45, digit, csub, Nat.not_lt.mpr hb, Nat.not_lt.mpr hc,
          Nat.not_lt.mpr he]
      · simp [recognized_shape, h45] at h1
    · simp_all [recognized_shape]

/-- Claim C7 witness: concrete instances of the three parts — a row with no
delimiter panics, an unrecognized five-digit unsigned value panics, and the
well-formed value `"12.3"` parses normally. -/
theorem parse_fatal_on_malformed_rows_witness :
    parse_row [97, 98] = none ∧
    parse_float [49, 46, 48, 48, 48] = none ∧
    (parse_float [49, 50, 46, 51]).isSome = true :=
  ⟨parse_fatal_on_malformed_rows.1 [97, 98] (by decide),
    parse_fatal_on_malformed_rows.2.1 [49, 46, 48, 48, 48] (by decide),
    parse_fatal_on_malformed_rows.2.2 [49, 50, 46, 51] (by decide) (by decide)⟩

/-- Claim C9: `read_file_chunk` panics whenever its buffer is smaller than
65 bytes: for the first chunk (`offset = 0`) the buffer is exactly
`chunk_size` bytes, so for any `chunk_size < 65` the tail-trim start
`buf.len() - 1 - 64` underflows `usize` (or the read itself fails) and the
call never returns normally — an unstated minimum-chunk-size precondition. -/
theorem small_buffer_chunk_aborts (file : List Nat) (file_size chunk_size : Nat)
    (h : chunk_size < 65) :
    read_file_chunk file file_size chunk_size 0 = none := by
  by_cases hle : chunk_size ≤ file.length
  · have hbuf : read_exact_at file 0 chunk_size = some (List.take chunk_size file) := by
      simp [read_exact_at, hle]
    have hlen : (List.take chunk_size file).length = chunk_size := by
      rw [List.length_take]
      omega
    by_cases h0 : chunk_size = 0
    · subst h0
      simp [read_file_chunk, read_exact_at, head_trim_go, csub]
    · have h1 : ¬ chunk_size < 1 := by omega
      have h2 : chunk_size - 1 < 64 := by omega
      simp [read_file_chunk, hbuf, head_trim_go, hlen, csub, h1, h2]
  · have hno : read_exact_at file 0 chunk_size = none := by
      simp [read_exact_at]
      omega
    simp [read_file_chunk, hno]

/-- Claim C9 witness: the spec's own scenario-1 input with one thread
(`chunk_size = file_size = 34 < 65`) makes `read_file_chunk` panic. -/
theorem small_buffer_chunk_aborts_witness :
    34 < 65 ∧ read_file_chunk scenario1 34 34 0 = none :=
  ⟨by decide, small_buffer_chunk_aborts scenario1 34 34 (by decide)⟩

end OneBrc

